import Mathlib

/-!
Verification of the voice-conversation CLI (`cli/` sources).

The development shallowly embeds the Python sources:

* `database.py`   → the `Database` namespace: an explicit `DBState` record
  (the two SQLite tables plus the AUTOINCREMENT counters) and one Lean
  function per store operation.  Each operation receives the wall-clock
  instant `now : Nat` that SQLite's `CURRENT_TIMESTAMP` would supply; a
  single store call is modelled as happening at one instant.  `ORDER BY`
  is modelled with `List.insertionSort` (a stable sort).  Failures that
  SQLite raises (the foreign-key check of `PRAGMA foreign_keys = ON`)
  are `Except.error`; the connection context manager rolls the
  transaction back on error, so an error leaves the state unchanged,
  which the `Except` shape makes structural.
* `config.py`     → the `Config` structure and `Config.init`, over an
  abstract environment `String → Option String`.
* `evi_client.py` → `SubscribeEvent` and `handle_message`.
* `conversation_manager.py` → `save_message_callback`, `setupPhase`,
  `activePhase`, `cleanup` and `start_conversation`, which also record a
  trace of externally visible actions (channel open/close, console
  reports, teardown steps) so that ordering properties can be stated.
-/

namespace HumeCLI

/-- Python's `needle in hay` substring test on strings. -/
def containsAux (sub : List Char) : List Char → Bool
  | [] => sub.isEmpty
  | c :: rest => sub.isPrefixOf (c :: rest) || containsAux sub rest

/-- The relation `strContains hay sub` models Python's `sub in hay`. -/
def strContains (hay sub : String) : Bool :=
  containsAux sub.toList hay.toList

/-- A row of the `conversations` table (`database.py`, `_init_schema`). -/
structure ConversationRow where
  id : Nat
  title : String
  created_at : Nat
  updated_at : Nat
  status : String
deriving Repr, DecidableEq

/-- A row of the `messages` table (`database.py`, `_init_schema`).
`audio_duration` is SQL `REAL`; it is never computed with, only stored,
so it is carried as an uninterpreted optional rational. -/
structure MessageRow where
  id : Nat
  conversation_id : Nat
  role : String
  content : String
  timestamp : Nat
  audio_duration : Option Rat
deriving Repr, DecidableEq

/-- The persistent store: the two tables plus the AUTOINCREMENT
counters (SQLite assigns ids 1, 2, ...). Rows are kept in insertion
(rowid) order. -/
structure DBState where
  conversations : List ConversationRow
  messages : List MessageRow
  nextConvId : Nat
  nextMsgId : Nat
deriving Repr, DecidableEq

/-- A freshly initialised database (`_init_schema` creates empty tables). -/
def DBState.empty : DBState :=
  { conversations := [], messages := [], nextConvId := 1, nextMsgId := 1 }

namespace Database

/-- Model of `create_conversation`: `if not title` replaces a missing or empty
title by a creation-timestamp-derived default, then inserts a row with
`status='active'` and both timestamps `CURRENT_TIMESTAMP`. -/
def create_conversation (db : DBState) (now : Nat) (title : Option String) :
    DBState × Nat :=
  let t := if title.getD "" = "" then "Conversation " ++ toString now
           else title.getD ""
  let row : ConversationRow :=
    { id := db.nextConvId, title := t, created_at := now, updated_at := now,
      status := "active" }
  ({ db with conversations := db.conversations ++ [row],
             nextConvId := db.nextConvId + 1 }, db.nextConvId)

/-- Model of `get_conversation`: `SELECT * FROM conversations WHERE id = ?`. -/
def get_conversation (db : DBState) (conversation_id : Nat) :
    Option ConversationRow :=
  db.conversations.find? (fun c => c.id == conversation_id)

/-- Model of `get_last_active_conversation`: most recently updated row with
`status='active'`. -/
def get_last_active_conversation (db : DBState) : Option ConversationRow :=
  (List.insertionSort (fun a b : ConversationRow => b.updated_at ≤ a.updated_at)
    (db.conversations.filter (fun c => c.status == "active"))).head?

/-- Model of `update_conversation_status`: sets `status` and bumps `updated_at`
on every row matching the id (SQL `UPDATE`; no error if none match). -/
def update_conversation_status (db : DBState) (now : Nat)
    (conversation_id : Nat) (status : String) : DBState :=
  { db with conversations := db.conversations.map (fun c =>
      if c.id == conversation_id then
        { c with status := status, updated_at := now }
      else c) }

/-- Model of `add_message`: one transaction that inserts the Message row and
bumps the parent Conversation's `updated_at`, committing both together.
With `PRAGMA foreign_keys = ON` the insert fails when the referenced
conversation does not exist; the context manager then rolls back, so
the error branch carries no new state. -/
def add_message (db : DBState) (now : Nat) (conversation_id : Nat)
    (role content : String) (audio_duration : Option Rat) :
    Except String (DBState × Nat) :=
  if db.conversations.any (fun c => c.id == conversation_id) then
    let row : MessageRow :=
      { id := db.nextMsgId, conversation_id := conversation_id, role := role,
        content := content, timestamp := now,
        audio_duration := audio_duration }
    Except.ok
      ({ db with
          messages := db.messages ++ [row],
          nextMsgId := db.nextMsgId + 1,
          conversations := db.conversations.map (fun c =>
            if c.id == conversation_id then { c with updated_at := now }
            else c) }, db.nextMsgId)
  else
    Except.error "FOREIGN KEY constraint failed"

/-- The messages belonging to one conversation, in rowid order. -/
def convMsgs (db : DBState) (conversation_id : Nat) : List MessageRow :=
  db.messages.filter (fun m => m.conversation_id == conversation_id)

/-- Ascending-timestamp order used by `get_messages`. -/
def msgLe (a b : MessageRow) : Prop := a.timestamp ≤ b.timestamp

instance : DecidableRel msgLe := fun a b => Nat.decLe a.timestamp b.timestamp

/-- Model of `get_messages`: `SELECT ... WHERE conversation_id = ? ORDER BY
timestamp ASC`. -/
def get_messages (db : DBState) (conversation_id : Nat) : List MessageRow :=
  List.insertionSort msgLe (convMsgs db conversation_id)

/-- One row of the aggregated `list_conversations` join. -/
structure ConvSummary where
  conv : ConversationRow
  message_count : Nat
  last_message_time : Option Nat
deriving Repr, DecidableEq

/-- The `LEFT JOIN ... GROUP BY` aggregation for one conversation:
`COUNT(m.id)` and `MAX(m.timestamp)` over its messages. -/
def mkSummary (db : DBState) (c : ConversationRow) : ConvSummary :=
  { conv := c,
    message_count := (convMsgs db c.id).length,
    last_message_time := ((convMsgs db c.id).map (fun m => m.timestamp)).max? }

/-- Descending `updated_at` order used by `list_conversations`. -/
def sumGe (a b : ConvSummary) : Prop := b.conv.updated_at ≤ a.conv.updated_at

instance : DecidableRel sumGe :=
  fun a b => Nat.decLe b.conv.updated_at a.conv.updated_at

instance : IsTotal ConvSummary sumGe :=
  ⟨fun a b => Nat.le_total b.conv.updated_at a.conv.updated_at⟩

instance : IsTrans ConvSummary sumGe :=
  ⟨fun _ _ _ hab hbc => Nat.le_trans hbc hab⟩

/-- Model of `list_conversations`: aggregate, `ORDER BY c.updated_at DESC`,
`LIMIT ?`. -/
def list_conversations (db : DBState) (limit : Nat) : List ConvSummary :=
  (List.insertionSort sumGe (db.conversations.map (mkSummary db))).take limit

end Database

/-- The error message raised by `Config._get_required_env`
(`config.py`): it names the offending variable and where to obtain both
required values. -/
def requiredEnvMsg (key : String) : String :=
  key ++ " not found or not configured. " ++
  "Set it in .env file or environment variable.\n" ++
  "For HUME_API_KEY: Get from https://platform.hume.ai/ → Settings → API Keys\n" ++
  "For HUME_CONFIG_ID: Create EVI config at https://platform.hume.ai/ → EVI → Create Configuration"

/-- Model of `Config._get_required_env`: a variable that is unset, empty
(Python's `not value`) or left at its `your_<key>_here` placeholder
raises `ValueError` with `requiredEnvMsg`. -/
def get_required_env (env : String → Option String) (key : String) :
    Except String String :=
  match env key with
  | none => Except.error (requiredEnvMsg key)
  | some v =>
      if v = "" || v = "your_" ++ key.toLower ++ "_here" then
        Except.error (requiredEnvMsg key)
      else Except.ok v

/-- The application configuration (`config.py`, `Config.__init__`). -/
structure Config where
  hume_api_key : String
  hume_config_id : String
  allow_interrupt : Bool
  db_path : String
  ssl_cert_file : Option String
deriving Repr, DecidableEq

/-- Model of `Config.__init__`: validates the two required variables eagerly (in
order), then reads the optional ones with their defaults. -/
def Config.init (env : String → Option String) : Except String Config := do
  let apiKey ← get_required_env env "HUME_API_KEY"
  let configId ← get_required_env env "HUME_CONFIG_ID"
  Except.ok
    { hume_api_key := apiKey, hume_config_id := configId,
      allow_interrupt := ((env "ALLOW_INTERRUPT").getD "false").toLower == "true",
      db_path := (env "DB_PATH").getD "conversations.db",
      ssl_cert_file := env "SSL_CERT_FILE" }

/-- Model of `Config.interruption_enabled`. -/
def Config.interruption_enabled (c : Config) : Bool := c.allow_interrupt

/-- The typed events delivered by the Channel
(`evi_client.py`, `_handle_message` dispatches on `message.type`). -/
inductive SubscribeEvent
  | audio_output (data : String)
  | user_interruption
  | user_message (content : String)
  | assistant_message (content : String)
  | other (type_name : String)
deriving Repr, DecidableEq

/-- The coordinator's mutable state while a session runs: the store,
`self.current_conversation_id`, the playback queue of the audio stream,
and the wall clock (strictly increasing across store writes). -/
structure CoordState where
  db : DBState
  current_conversation_id : Option Nat
  audioQueue : List String
  now : Nat
deriving Repr, DecidableEq

/-- Model of `ConversationManager._save_message_callback`: persists the message
unless the role is `"system"` or no conversation is current; a store
failure is caught and logged (the state is left as it was) and never
aborts the session. -/
def save_message_callback (role content : String) (s : CoordState) : CoordState :=
  if role != "system" then
    match s.current_conversation_id with
    | some cid =>
        match Database.add_message s.db s.now cid role content none with
        | .ok (db1, _) => { s with db := db1, now := s.now + 1 }
        | .error _ => s
    | none => s
  else s

/-- Model of `EVIClient._handle_message`: classify one inbound event.  Audio
frames are queued for playback (the base64 payload is carried
without interpretation); an interruption drains the queue and emits a transient
`system` notification; transcripts go to the registered callback with
their role; unknown kinds produce a `system` notification only. -/
def handle_message (s : CoordState) (ev : SubscribeEvent) : CoordState :=
  match ev with
  | .audio_output data => { s with audioQueue := s.audioQueue ++ [data] }
  | .user_interruption =>
      save_message_callback "system" "[Interrupted]" { s with audioQueue := [] }
  | .user_message content => save_message_callback "user" content s
  | .assistant_message content => save_message_callback "assistant" content s
  | .other ty => save_message_callback "system" ("[" ++ ty ++ "]") s

/-- Externally visible actions of one `start_conversation` run, in
order: store status writes, channel lifecycle, console reports, and the
teardown steps of `_cleanup`. -/
inductive Action
  | createConv (id : Nat)
  | setStatusActive (id : Nat)
  | printNotFound (id : Nat)
  | openChannel
  | closeChannel
  | printStopping
  | printTimeoutInfo
  | printError (msg : String)
  | setStatusPaused (id : Nat)
  | logPauseError
  | stopAudioBridge
  | logStopError
deriving Repr, DecidableEq

/-- How the blocking microphone loop of the Active state ends. -/
inductive Ending
  | cancelled
  | failed (ty msg : String)
  | finished
deriving Repr, DecidableEq

/-- The environment of one session run: whether the channel opens, the
events delivered while Active, how the loop ends, and whether the two
teardown steps of `_cleanup` succeed (each is wrapped in its own
`try/except`). -/
structure SessionEnv where
  connectOk : Bool
  connectErrTy : String
  connectErrMsg : String
  events : List SubscribeEvent
  ending : Ending
  pauseUpdateOk : Bool
  stopMicOk : Bool
deriving Repr, DecidableEq

/-- The termination classification of `start_conversation`'s `except
Exception` clause: `"ConnectionClosedError" in str(type(e)) or "no
close frame" in str(e)`. -/
def isTimeoutClose (ty msg : String) : Bool :=
  strContains ty "ConnectionClosedError" || strContains msg "no close frame"

/-- Console report chosen by the `except Exception` clause: the
informational session-ended/resume message for a handshake-less close,
the error report otherwise. -/
def errorReport (ty msg : String) : List Action :=
  if isTimeoutClose ty msg then [Action.printTimeoutInfo]
  else [Action.printError msg]

/-- Actions on the way out of the Active state: a user cancellation is
caught inside the `async with` (printing "Stopping...") so the channel
closes afterwards; an exception propagates through the context exit
(channel closes first) and is then classified and reported. -/
def activeExit (e : Ending) : List Action :=
  match e with
  | .cancelled => [Action.printStopping, Action.closeChannel]
  | .finished => [Action.closeChannel]
  | .failed ty msg => Action.closeChannel :: errorReport ty msg

/-- The store effect of `ConversationManager._cleanup`: set the
current conversation's status to `paused` — unless no conversation is
current or the update raises (the failure is caught and logged). -/
def cleanupDB (s : CoordState) (env : SessionEnv) : DBState :=
  match s.current_conversation_id with
  | some cid =>
      if env.pauseUpdateOk then
        Database.update_conversation_status s.db s.now cid "paused"
      else s.db
  | none => s.db

/-- The observable actions of `_cleanup`: the status update (or its
logged failure), then — unconditionally — the microphone stop (or its
logged failure); each step's failure does not block the next. -/
def cleanupTrace (s : CoordState) (env : SessionEnv) : List Action :=
  (match s.current_conversation_id with
   | some cid =>
       if env.pauseUpdateOk then [Action.setStatusPaused cid]
       else [Action.logPauseError]
   | none => []) ++
  (if env.stopMicOk then [Action.stopAudioBridge] else [Action.logStopError])

/-- The conversation-setup step of `start_conversation`: with an id,
look it up (early not-found return when absent) and set it `active`;
without one, create a fresh conversation whose id becomes current. -/
def setupPhase (db : DBState) (t0 : Nat) (conversation_id : Option Nat) :
    Except (List Action) (CoordState × List Action) :=
  match conversation_id with
  | some cid =>
      match Database.get_conversation db cid with
      | none => Except.error [Action.printNotFound cid]
      | some _ =>
          Except.ok
            ({ db := Database.update_conversation_status db t0 cid "active",
               current_conversation_id := some cid, audioQueue := [],
               now := t0 + 1 },
             [Action.setStatusActive cid])
  | none =>
      Except.ok
        ({ db := (Database.create_conversation db t0 none).1,
           current_conversation_id :=
             some (Database.create_conversation db t0 none).2,
           audioQueue := [], now := t0 + 1 },
         [Action.createConv (Database.create_conversation db t0 none).2])

/-- The Active state: the registered handler processes each delivered
event in order (errors inside one event are isolated, see
`save_message_callback`). -/
def activePhase (s : CoordState) (events : List SubscribeEvent) : CoordState :=
  events.foldl handle_message s

/-- The observable outcome of one `start_conversation` run. -/
structure RunResult where
  db : DBState
  trace : List Action
deriving Repr, DecidableEq

/-- Model of `ConversationManager.start_conversation`: setup, connect, run the
microphone loop while the handler processes events, then — on every
path, via `finally` — `_cleanup`.  A not-found id returns early (still
through `finally`); a connect failure skips the Active state (the
context manager was never entered, so there is no channel to close) and
is classified by the same `except` clause. -/
def start_conversation (db : DBState) (t0 : Nat)
    (conversation_id : Option Nat) (env : SessionEnv) : RunResult :=
  match setupPhase db t0 conversation_id with
  | .error tr =>
      { db := cleanupDB
          { db := db, current_conversation_id := none, audioQueue := [],
            now := t0 } env,
        trace := tr ++ cleanupTrace
          { db := db, current_conversation_id := none, audioQueue := [],
            now := t0 } env }
  | .ok (s0, tr0) =>
      if env.connectOk then
        { db := cleanupDB (activePhase s0 env.events) env,
          trace := tr0 ++ [Action.openChannel] ++ activeExit env.ending ++
            cleanupTrace (activePhase s0 env.events) env }
      else
        { db := cleanupDB s0 env,
          trace := tr0 ++ errorReport env.connectErrTy env.connectErrMsg ++
            cleanupTrace s0 env }

/-- The CLI `start` command (`cli.py`): construct the configuration
first — a configuration error aborts before any session is attempted —
then run a fresh conversation. -/
def cliStart (envv : String → Option String) (db : DBState) (t0 : Nat)
    (senv : SessionEnv) : Except String RunResult := do
  let _ ← Config.init envv
  Except.ok (start_conversation db t0 none senv)

/-- The persisted rows a script of `add_message` calls at instants
`(t, role, content)` produces: ids continue from `nid`. -/
def expectedRows (nid cid : Nat) :
    List (Nat × String × String) → List MessageRow
  | [] => []
  | (t, r, c) :: rest =>
      { id := nid, conversation_id := cid, role := r, content := c,
        timestamp := t, audio_duration := none } ::
        expectedRows (nid + 1) cid rest

/-- Persist a script of `(instant, role, content)` events through
`add_message`, as the coordinator's callback does over a session. -/
def addAll (db : DBState) (cid : Nat) :
    List (Nat × String × String) → DBState
  | [] => db
  | (t, r, c) :: rest =>
      match Database.add_message db t cid r c none with
      | .ok (db1, _) => addAll db1 cid rest
      | .error _ => db

/-- The instant of the last script entry, or `d` for an empty script. -/
def lastD (d : Nat) (script : List (Nat × String × String)) : Nat :=
  ((script.getLast?).map (fun x => x.1)).getD d

/-! Concrete fixtures used by the witness theorems. -/

/-- A single active conversation row. -/
def sampleConv : ConversationRow :=
  { id := 1, title := "demo", created_at := 0, updated_at := 0,
    status := "active" }

/-- A store holding one active conversation and no messages. -/
def sampleDB : DBState :=
  { conversations := [sampleConv],
    messages := [], nextConvId := 2, nextMsgId := 1 }

/-- A two-turn transcript script at increasing instants. -/
def wScript : List (Nat × String × String) :=
  [(1, "user", "hi"), (2, "assistant", "hello")]

/-- A session that connects, receives nothing and ends normally. -/
def okEnv : SessionEnv :=
  { connectOk := true, connectErrTy := "", connectErrMsg := "", events := [],
    ending := Ending.finished, pauseUpdateOk := true, stopMicOk := true }

/-- A session that receives two transcripts and then loses the channel
without a close handshake (the remote session-duration limit). -/
def timeoutEnv : SessionEnv :=
  { okEnv with
    events := [SubscribeEvent.user_message "hi",
               SubscribeEvent.assistant_message "hello"],
    ending := Ending.failed "websockets.exceptions.ConnectionClosedError"
      "no close frame received or sent" }

/-- A session whose channel never opens. -/
def noConnectEnv : SessionEnv :=
  { okEnv with
    connectOk := false, connectErrTy := "OSError",
    connectErrMsg := "connection refused" }

/-- The coordinator state right after a fresh start on an empty store. -/
def freshS0 : CoordState :=
  { db := (Database.create_conversation DBState.empty 0 none).1,
    current_conversation_id := some 1, audioQueue := [], now := 1 }

/-- The coordinator state right after resuming conversation 1 of
`sampleDB`. -/
def resumeS0 : CoordState :=
  { db := Database.update_conversation_status sampleDB 0 1 "active",
    current_conversation_id := some 1, audioQueue := [], now := 1 }

/-- An environment with no variables set. -/
def emptyEnvVars : String → Option String := fun _ => none

/-- A fresh start on the empty store whose connection fails. -/
def c10run : RunResult := start_conversation DBState.empty 3 none noConnectEnv

/-- The row `add_message sampleDB 5 1 "user" "hi"` inserts. -/
def sampleMsg : MessageRow :=
  { id := 1, conversation_id := 1, role := "user", content := "hi",
    timestamp := 5, audio_duration := none }

/-- The store `sampleDB` after that `add_message` call. -/
def sampleDBAfter : DBState :=
  { conversations :=
      [{ id := 1, title := "demo", created_at := 0, updated_at := 5,
         status := "active" }],
    messages := [sampleMsg], nextConvId := 2, nextMsgId := 2 }

/-! ## Helper lemmas -/

/-- Lemma: `find?` by id commutes with a row transformation that preserves ids. -/
theorem find?_map_of_id (l : List ConversationRow) (cid : Nat)
    (f : ConversationRow → ConversationRow) (hf : ∀ c, (f c).id = c.id) :
    (l.map f).find? (fun c => c.id == cid) =
      (l.find? (fun c => c.id == cid)).map f := by
  induction l with
  | nil => rfl
  | cons a l ih =>
      have hpa : ((f a).id == cid) = (a.id == cid) := by rw [hf]
      by_cases h : (a.id == cid) = true
      · simp [List.find?_cons, hpa, h]
      · simp only [Bool.not_eq_true] at h
        simp [List.find?_cons, hpa, h, ih]

/-- Lemma: `update_conversation_status` leaves the messages table untouched. -/
theorem update_status_messages (db : DBState) (now cid : Nat) (st : String) :
    (Database.update_conversation_status db now cid st).messages =
      db.messages := rfl

/-- Looking the conversation up after `update_conversation_status`
returns the updated row. -/
theorem get_conversation_update_status (db : DBState) (now cid : Nat)
    (st : String) :
    Database.get_conversation
        (Database.update_conversation_status db now cid st) cid =
      (Database.get_conversation db cid).map (fun c =>
        if c.id == cid then { c with status := st, updated_at := now }
        else c) := by
  unfold Database.get_conversation Database.update_conversation_status
  exact find?_map_of_id db.conversations cid _ (fun c => by
    by_cases h : (c.id == cid) = true <;> simp [h])

/-- A conversation found by id makes the foreign-key `any` check pass. -/
theorem any_of_get_conversation (db : DBState) (cid : Nat)
    (c0 : ConversationRow) (h : Database.get_conversation db cid = some c0) :
    db.conversations.any (fun c => c.id == cid) = true := by
  have h' : List.find? (fun c => c.id == cid) db.conversations = some c0 := h
  have hp := List.find?_some h'
  rw [List.any_eq_true]
  exact ⟨c0, List.mem_of_find?_eq_some h', hp⟩

/-- A successful `add_message` call spelled out. -/
theorem add_message_ok (db : DBState) (now cid : Nat) (role content : String)
    (dur : Option Rat)
    (hany : db.conversations.any (fun c => c.id == cid) = true) :
    Database.add_message db now cid role content dur =
      Except.ok
        ({ db with
            messages := db.messages ++
              [{ id := db.nextMsgId, conversation_id := cid, role := role,
                 content := content, timestamp := now,
                 audio_duration := dur }],
            nextMsgId := db.nextMsgId + 1,
            conversations := db.conversations.map (fun c =>
              if c.id == cid then { c with updated_at := now } else c) },
         db.nextMsgId) := by
  unfold Database.add_message
  rw [if_pos hany]

/-- Looking the conversation up after the `updated_at` bump and row
insert of a successful `add_message` returns the bumped row. -/
theorem get_conversation_after_add (db : DBState) (now cid : Nat)
    (role content : String) (dur : Option Rat) (c0 : ConversationRow)
    (h : Database.get_conversation db cid = some c0) :
    Database.get_conversation
      { db with
          messages := db.messages ++
            [{ id := db.nextMsgId, conversation_id := cid, role := role,
               content := content, timestamp := now,
               audio_duration := dur }],
          nextMsgId := db.nextMsgId + 1,
          conversations := db.conversations.map (fun c =>
            if c.id == cid then { c with updated_at := now } else c) } cid =
      some { c0 with updated_at := now } := by
  have h' : List.find? (fun c => c.id == cid) db.conversations = some c0 := h
  unfold Database.get_conversation
  dsimp only
  rw [find?_map_of_id db.conversations cid
      (fun c => if c.id == cid then { c with updated_at := now } else c)
      (fun c => by by_cases hc : (c.id == cid) = true <;> simp [hc])]
  rw [h']
  have heq : c0.id = cid := by simpa using List.find?_some h'
  simp [heq]

/-- Dropping the head of a nonempty script moves the default instant. -/
theorem lastD_cons (d t : Nat) (r c : String)
    (rest : List (Nat × String × String)) :
    lastD d ((t, r, c) :: rest) = lastD t rest := by
  cases rest with
  | nil => rfl
  | cons y ys =>
      unfold lastD
      rw [List.getLast?_cons_cons]
      obtain ⟨z, hz⟩ := Option.isSome_iff_exists.mp
        (List.getLast?_isSome.mpr (List.cons_ne_nil y ys))
      rw [hz]
      rfl

/-- Lemma: `expectedRows` only holds rows of the target conversation. -/
theorem expectedRows_filter (cid : Nat)
    (script : List (Nat × String × String)) :
    ∀ nid, (expectedRows nid cid script).filter
        (fun m => m.conversation_id == cid) =
      expectedRows nid cid script := by
  induction script with
  | nil => intro nid; rfl
  | cons x rest ih =>
      intro nid
      obtain ⟨t, r, c⟩ := x
      simp [expectedRows, ih]

/-- The timestamps of `expectedRows` are the script instants. -/
theorem expectedRows_timestamps (cid : Nat)
    (script : List (Nat × String × String)) :
    ∀ nid, (expectedRows nid cid script).map (fun m => m.timestamp) =
      script.map (fun x => x.1) := by
  induction script with
  | nil => intro nid; rfl
  | cons x rest ih =>
      intro nid
      obtain ⟨t, r, c⟩ := x
      simp [expectedRows, ih]

/-- Every row of `expectedRows` carries one of the script instants. -/
theorem mem_expectedRows_timestamp (cid : Nat)
    (script : List (Nat × String × String)) :
    ∀ nid m, m ∈ expectedRows nid cid script →
      ∃ x ∈ script, m.timestamp = x.1 := by
  induction script with
  | nil => intro nid m hm; cases hm
  | cons x rest ih =>
      intro nid m hm
      obtain ⟨t, r, c⟩ := x
      rcases List.mem_cons.mp hm with rfl | hm'
      · exact ⟨(t, r, c), List.mem_cons_self _ _, rfl⟩
      · obtain ⟨x, hx, ht⟩ := ih (nid + 1) m hm'
        exact ⟨x, List.mem_cons_of_mem _ hx, ht⟩

/-- A script of non-decreasing instants yields timestamp-sorted rows. -/
theorem expectedRows_sorted (cid : Nat) :
    ∀ (script : List (Nat × String × String)) (nid : Nat),
      List.Pairwise (fun a b => a.1 ≤ b.1) script →
      List.Sorted Database.msgLe (expectedRows nid cid script) := by
  intro script
  induction script with
  | nil => intro nid _; exact List.sorted_nil
  | cons x rest ih =>
      intro nid h
      obtain ⟨t, r, c⟩ := x
      obtain ⟨hhead, htail⟩ := List.pairwise_cons.mp h
      refine List.pairwise_cons.mpr ⟨?_, ih (nid + 1) htail⟩
      intro m hm
      obtain ⟨x, hx, hts⟩ := mem_expectedRows_timestamp cid rest (nid + 1) m hm
      show Database.msgLe _ m
      unfold Database.msgLe
      rw [hts]
      exact hhead x hx

/-- Invariant of the `add_message` fold: the rows of the script are
appended in order with consecutive ids, and the parent conversation's
`updated_at` tracks the last call instant. -/
theorem addAll_spec (script : List (Nat × String × String)) :
    ∀ db cid c0, Database.get_conversation db cid = some c0 →
      (addAll db cid script).messages =
        db.messages ++ expectedRows db.nextMsgId cid script ∧
      Database.get_conversation (addAll db cid script) cid =
        some { c0 with updated_at := lastD c0.updated_at script } := by
  induction script with
  | nil =>
      intro db cid c0 h
      exact ⟨by simp [addAll, expectedRows], h⟩
  | cons x rest ih =>
      intro db cid c0 h
      obtain ⟨t, r, c⟩ := x
      have hany := any_of_get_conversation db cid c0 h
      unfold addAll
      rw [add_message_ok db t cid r c none hany]
      have h1 := get_conversation_after_add db t cid r c none c0 h
      obtain ⟨ihm, ihc⟩ := ih _ cid { c0 with updated_at := t } h1
      constructor
      · rw [ihm]
        simp [expectedRows]
      · rw [ihc, lastD_cons]

/-- The messages table after a successful `add_message`, from the call
equation. -/
theorem add_message_ok_messages (db : DBState) (now cid : Nat)
    (role content : String) (dur : Option Rat) (db1 : DBState) (mid : Nat)
    (h : Database.add_message db now cid role content dur =
      Except.ok (db1, mid)) :
    db1.messages = db.messages ++
      [{ id := mid, conversation_id := cid, role := role, content := content,
         timestamp := now, audio_duration := dur }] := by
  unfold Database.add_message at h
  split at h
  · injection h with h1
    injection h1 with hdb hmid
    subst hdb; subst hmid
    rfl
  · simp at h

/-- The conversations table after a successful `add_message`. -/
theorem add_message_ok_conversations (db : DBState) (now cid : Nat)
    (role content : String) (dur : Option Rat) (db1 : DBState) (mid : Nat)
    (h : Database.add_message db now cid role content dur =
      Except.ok (db1, mid)) :
    db1.conversations = db.conversations.map (fun c =>
      if c.id == cid then { c with updated_at := now } else c) := by
  unfold Database.add_message at h
  split at h
  · injection h with h1
    injection h1 with hdb hmid
    subst hdb; subst hmid
    rfl
  · simp at h

/-- The message callback never changes the current conversation id. -/
theorem save_current (role content : String) (s : CoordState) :
    (save_message_callback role content s).current_conversation_id =
      s.current_conversation_id := by
  unfold save_message_callback
  split
  · cases hcur : s.current_conversation_id with
    | none => exact hcur
    | some cid =>
        cases hadd : Database.add_message s.db s.now cid role content none with
        | ok p => obtain ⟨db1, mid⟩ := p; simp [hadd, hcur]
        | error e => simp [hadd, hcur]
  · rfl

/-- The message callback never adds a `system`-role row. -/
theorem save_filter_system (role content : String) (s : CoordState) :
    (save_message_callback role content s).db.messages.filter
        (fun m => m.role == "system") =
      s.db.messages.filter (fun m => m.role == "system") := by
  unfold save_message_callback
  split
  case isTrue hr =>
    cases hcur : s.current_conversation_id with
    | none => rfl
    | some cid =>
        cases hadd : Database.add_message s.db s.now cid role content none with
        | ok p =>
            obtain ⟨db1, mid⟩ := p
            have hm := add_message_ok_messages s.db s.now cid role content
              none db1 mid hadd
            have hrole : (role == "system") = false := by
              simpa using hr
            simp [hadd, hm, List.filter_append, hrole]
        | error e => simp [hadd]
  case isFalse => rfl

/-- The message callback preserves which conversations exist. -/
theorem save_get_isSome (role content : String) (s : CoordState) (cid : Nat) :
    (Database.get_conversation (save_message_callback role content s).db
        cid).isSome =
      (Database.get_conversation s.db cid).isSome := by
  unfold save_message_callback
  split
  · cases hcur : s.current_conversation_id with
    | none => rfl
    | some cur =>
        cases hadd : Database.add_message s.db s.now cur role content none with
        | ok p =>
            obtain ⟨db1, mid⟩ := p
            have hc := add_message_ok_conversations s.db s.now cur role
              content none db1 mid hadd
            simp only [hadd]
            unfold Database.get_conversation
            rw [show db1.conversations = _ from hc]
            rw [find?_map_of_id s.db.conversations cid
              (fun c => if c.id == cur then { c with updated_at := s.now }
                        else c)
              (fun c => by
                by_cases hcc : (c.id == cur) = true <;> simp [hcc])]
            cases List.find? (fun c => c.id == cid) s.db.conversations <;> rfl
        | error e => simp [hadd]
  · rfl

/-- Lemma: `handle_message` never changes the current conversation id. -/
theorem handle_current (s : CoordState) (ev : SubscribeEvent) :
    (handle_message s ev).current_conversation_id =
      s.current_conversation_id := by
  cases ev <;> simp [handle_message, save_current]

/-- Lemma: `handle_message` never adds a `system`-role row. -/
theorem handle_filter_system (s : CoordState) (ev : SubscribeEvent) :
    (handle_message s ev).db.messages.filter (fun m => m.role == "system") =
      s.db.messages.filter (fun m => m.role == "system") := by
  cases ev <;> simp [handle_message, save_filter_system]

/-- Lemma: `handle_message` preserves which conversations exist. -/
theorem handle_get_isSome (s : CoordState) (ev : SubscribeEvent) (cid : Nat) :
    (Database.get_conversation (handle_message s ev).db cid).isSome =
      (Database.get_conversation s.db cid).isSome := by
  cases ev <;> simp [handle_message, save_get_isSome]

/-- The Active phase never changes the current conversation id. -/
theorem activePhase_current (events : List SubscribeEvent) :
    ∀ s, (activePhase s events).current_conversation_id =
      s.current_conversation_id := by
  induction events with
  | nil => intro s; rfl
  | cons ev rest ih =>
      intro s
      show (activePhase (handle_message s ev) rest).current_conversation_id = _
      rw [ih, handle_current]

/-- The Active phase never adds a `system`-role row. -/
theorem activePhase_filter_system (events : List SubscribeEvent) :
    ∀ s, (activePhase s events).db.messages.filter
        (fun m => m.role == "system") =
      s.db.messages.filter (fun m => m.role == "system") := by
  induction events with
  | nil => intro s; rfl
  | cons ev rest ih =>
      intro s
      show (activePhase (handle_message s ev) rest).db.messages.filter _ = _
      rw [ih, handle_filter_system]

/-- The Active phase preserves which conversations exist. -/
theorem activePhase_get_isSome (events : List SubscribeEvent) :
    ∀ s cid, (Database.get_conversation (activePhase s events).db
        cid).isSome =
      (Database.get_conversation s.db cid).isSome := by
  induction events with
  | nil => intro s _; rfl
  | cons ev rest ih =>
      intro s cid
      show (Database.get_conversation
        (activePhase (handle_message s ev) rest).db cid).isSome = _
      rw [ih, handle_get_isSome]

/-- Lemma: `_cleanup` never touches the messages table. -/
theorem cleanupDB_messages (s : CoordState) (env : SessionEnv) :
    (cleanupDB s env).messages = s.db.messages := by
  unfold cleanupDB
  cases s.current_conversation_id with
  | none => rfl
  | some cid =>
      by_cases hp : env.pauseUpdateOk = true
      · simp [hp, update_status_messages]
      · simp [hp]

/-- Lemma: `_cleanup`'s store effect when a conversation is current. -/
theorem cleanupDB_of_current (s : CoordState) (env : SessionEnv) (c : Nat)
    (hcur : s.current_conversation_id = some c)
    (hp : env.pauseUpdateOk = true) :
    cleanupDB s env =
      Database.update_conversation_status s.db s.now c "paused" := by
  unfold cleanupDB
  rw [hcur]
  simp [hp]

/-- Lemma: `_cleanup`'s actions when a conversation is current. -/
theorem cleanupTrace_of_current (s : CoordState) (env : SessionEnv) (c : Nat)
    (hcur : s.current_conversation_id = some c) :
    cleanupTrace s env =
      (if env.pauseUpdateOk then [Action.setStatusPaused c]
       else [Action.logPauseError]) ++
      (if env.stopMicOk then [Action.stopAudioBridge]
       else [Action.logStopError]) := by
  unfold cleanupTrace
  rw [hcur]

/-- What a successful `setupPhase` guarantees: a current conversation
that exists in the store, untouched messages, and the setup report. -/
theorem setupPhase_ok (db : DBState) (t0 : Nat) (cid? : Option Nat)
    (s0 : CoordState) (tr0 : List Action)
    (h : setupPhase db t0 cid? = Except.ok (s0, tr0)) :
    ∃ c, s0.current_conversation_id = some c ∧
      s0.db.messages = db.messages ∧
      (Database.get_conversation s0.db c).isSome = true ∧
      (tr0 = [Action.setStatusActive c] ∨ tr0 = [Action.createConv c]) := by
  cases cid? with
  | some cid =>
      simp only [setupPhase] at h
      cases hg : Database.get_conversation db cid with
      | none => rw [hg] at h; simp at h
      | some c1 =>
          rw [hg] at h
          injection h with h1
          injection h1 with hs ht
          subst hs; subst ht
          refine ⟨cid, rfl, rfl, ?_, Or.inl rfl⟩
          show (Database.get_conversation
            (Database.update_conversation_status db t0 cid "active")
            cid).isSome = true
          rw [get_conversation_update_status, hg]
          rfl
  | none =>
      simp only [setupPhase] at h
      injection h with h1
      injection h1 with hs ht
      subst hs; subst ht
      refine ⟨(Database.create_conversation db t0 none).2, rfl, rfl, ?_,
        Or.inr rfl⟩
      unfold Database.get_conversation Database.create_conversation
      dsimp only
      rw [List.find?_append]
      cases hfl : List.find? (fun c => c.id == db.nextConvId)
        db.conversations <;> simp [List.find?]

/-- Pausing a conversation that exists yields a `paused` record. -/
theorem get_conversation_after_pause (db : DBState) (now cid : Nat)
    (st : String)
    (h : (Database.get_conversation db cid).isSome = true) :
    ∃ c', Database.get_conversation
        (Database.update_conversation_status db now cid st) cid =
      some c' ∧ c'.status = st := by
  obtain ⟨c0, hc0⟩ := Option.isSome_iff_exists.mp h
  have h' : List.find? (fun c => c.id == cid) db.conversations = some c0 := hc0
  have hp := List.find?_some h'
  refine ⟨{ c0 with status := st, updated_at := now }, ?_, rfl⟩
  rw [get_conversation_update_status, hc0]
  have heq : c0.id = cid := by simpa using hp
  simp [heq]

/-- Lemma: `get_required_env` fails only with its descriptive message. -/
theorem get_required_env_error (env : String → Option String) (key e : String)
    (h : get_required_env env key = Except.error e) :
    e = requiredEnvMsg key := by
  unfold get_required_env at h
  cases henv : env key with
  | none =>
      rw [henv] at h
      injection h with h1
      exact h1.symm
  | some v =>
      rw [henv] at h
      dsimp only at h
      split at h
      · injection h with h1
        exact h1.symm
      · simp at h

/-! ## Claim theorems -/

/-- C2: `add_message` inserts the Message row and bumps the parent
Conversation's `updated_at` as one atomic unit: a successful call has
both effects (the `Except` shape of the embedding makes the error
branch carry no half-applied state, matching the transaction rollback), and
afterwards the conversation's `updated_at` is ≥ the timestamp of every
one of its messages — in particular of its most recent one. -/
theorem add_message_atomic (db : DBState) (now cid : Nat)
    (role content : String) (dur : Option Rat) (db' : DBState) (mid : Nat)
    (hmono : ∀ m ∈ db.messages, m.timestamp ≤ now)
    (h : Database.add_message db now cid role content dur =
      Except.ok (db', mid)) :
    db'.messages = db.messages ++
      [{ id := mid, conversation_id := cid, role := role, content := content,
         timestamp := now, audio_duration := dur }] ∧
    ∃ c', Database.get_conversation db' cid = some c' ∧ c'.updated_at = now ∧
      ∀ m ∈ db'.messages, m.conversation_id = cid →
        m.timestamp ≤ c'.updated_at := by
  unfold Database.add_message at h
  split at h
  case isTrue hany =>
    injection h with h1
    injection h1 with hdb hmid
    subst hdb; subst hmid
    refine ⟨rfl, ?_⟩
    have hsome : (db.conversations.find? (fun c => c.id == cid)).isSome := by
      rw [List.find?_isSome]
      simpa using hany
    obtain ⟨c0, hc0⟩ := Option.isSome_iff_exists.mp hsome
    have hpc0 : (c0.id == cid) = true :=
      @List.find?_some _ (fun c => c.id == cid) c0 db.conversations hc0
    refine ⟨{ c0 with updated_at := now }, ?_, rfl, ?_⟩
    · unfold Database.get_conversation
      dsimp only
      rw [find?_map_of_id db.conversations cid
        (fun c => if c.id == cid then { c with updated_at := now } else c)
        (fun c => by by_cases hc : (c.id == cid) = true <;> simp [hc])]
      rw [hc0]
      have heq : c0.id = cid := by simpa using hpc0
      simp [heq]
    · intro m hm _
      rcases List.mem_append.mp hm with hold | hnew
      · exact hmono m hold
      · rcases List.mem_singleton.mp hnew with rfl
        exact Nat.le_refl _
  case isFalse hany => simp at h

/-- C2 witness: a concrete successful `add_message` on `sampleDB`. -/
theorem add_message_atomic_witness :
    (∀ m ∈ sampleDB.messages, m.timestamp ≤ 5) ∧
    (sampleDBAfter.messages = sampleDB.messages ++ [sampleMsg] ∧
     ∃ c', Database.get_conversation sampleDBAfter 1 = some c' ∧
       c'.updated_at = 5 ∧
       ∀ m ∈ sampleDBAfter.messages, m.conversation_id = 1 →
         m.timestamp ≤ c'.updated_at) :=
  ⟨by simp [sampleDB],
   add_message_atomic sampleDB 5 1 "user" "hi" none sampleDBAfter 1
     (by simp [sampleDB]) (by rfl)⟩

/-- C8: `create_conversation` (any optional title, including none)
followed by `get_conversation` on the returned id yields a record with
status `active` and a non-empty title (the default being derived from
the creation timestamp). -/
theorem create_then_get (db : DBState) (now : Nat) (title : Option String)
    (hfresh : ∀ c ∈ db.conversations, c.id ≠ db.nextConvId) :
    ∃ rec,
      Database.get_conversation (Database.create_conversation db now title).1
        (Database.create_conversation db now title).2 = some rec ∧
      rec.status = "active" ∧ rec.title ≠ "" := by
  refine ⟨{ id := db.nextConvId,
            title := if title.getD "" = "" then "Conversation " ++ toString now
                     else title.getD "",
            created_at := now, updated_at := now, status := "active" },
          ?_, rfl, ?_⟩
  · show List.find? (fun c => c.id == db.nextConvId)
        (db.conversations ++
          [{ id := db.nextConvId,
             title := if title.getD "" = "" then "Conversation " ++ toString now
                      else title.getD "",
             created_at := now, updated_at := now, status := "active" }]) =
      some _
    rw [List.find?_append]
    have h1 : db.conversations.find? (fun c => c.id == db.nextConvId) = none := by
      rw [List.find?_eq_none]
      intro c hc
      simpa using hfresh c hc
    rw [h1]
    simp [List.find?]
  · by_cases ht : title.getD "" = ""
    · simp only [ht, if_true]
      intro heq
      have h2 := congrArg String.length heq
      rw [String.length_append] at h2
      have h3 : ("Conversation ").length = 13 := rfl
      rw [h3] at h2
      simp at h2
    · rw [if_neg ht]
      exact ht

/-- C4: the coordinator never persists a `system` message: the
notification callback invoked with role `"system"` leaves the store
untouched, and across any whole `start_conversation` run the
`system`-role Message rows are exactly those already present before
the run (none is ever added, in any flow). -/
theorem no_system_messages_persisted :
    (∀ content s,
      (save_message_callback "system" content s).db = s.db) ∧
    (∀ db t0 cid? env,
      (start_conversation db t0 cid? env).db.messages.filter
          (fun m => m.role == "system") =
        db.messages.filter (fun m => m.role == "system")) := by
  constructor
  · intro content s
    unfold save_message_callback
    simp
  · intro db t0 cid? env
    cases hsp : setupPhase db t0 cid? with
    | error tr =>
        unfold start_conversation
        rw [hsp]
        rfl
    | ok p =>
        obtain ⟨s0, tr0⟩ := p
        obtain ⟨c, hcur, hmsgs, hsome, htr0⟩ :=
          setupPhase_ok db t0 cid? s0 tr0 hsp
        unfold start_conversation
        rw [hsp]
        by_cases hc : env.connectOk = true
        · simp only [hc, if_true]
          show (cleanupDB (activePhase s0 env.events) env).messages.filter
              (fun m => m.role == "system") =
            db.messages.filter (fun m => m.role == "system")
          rw [cleanupDB_messages, activePhase_filter_system env.events s0,
            hmsgs]
        · simp only [hc, if_false]
          show (cleanupDB s0 env).messages.filter
              (fun m => m.role == "system") =
            db.messages.filter (fun m => m.role == "system")
          rw [cleanupDB_messages, hmsgs]

/-- C3: resuming a nonexistent conversation id reports not-found,
opens no channel, creates no conversation, and leaves the entire store
(all rows, statuses and timestamps) exactly as it was. -/
theorem resume_not_found (db : DBState) (t0 cid : Nat) (env : SessionEnv)
    (h : Database.get_conversation db cid = none) :
    (start_conversation db t0 (some cid) env).db = db ∧
    (start_conversation db t0 (some cid) env).trace =
      Action.printNotFound cid ::
        (if env.stopMicOk then [Action.stopAudioBridge]
         else [Action.logStopError]) ∧
    Action.openChannel ∉ (start_conversation db t0 (some cid) env).trace ∧
    ∀ i, Action.createConv i ∉
      (start_conversation db t0 (some cid) env).trace := by
  have hsp : setupPhase db t0 (some cid) =
      Except.error [Action.printNotFound cid] := by
    simp only [setupPhase]
    rw [h]
  have htr : (start_conversation db t0 (some cid) env).trace =
      Action.printNotFound cid ::
        (if env.stopMicOk then [Action.stopAudioBridge]
         else [Action.logStopError]) := by
    unfold start_conversation
    rw [hsp]
    rfl
  refine ⟨?_, htr, ?_, ?_⟩
  · unfold start_conversation
    rw [hsp]
    rfl
  · rw [htr]
    by_cases hs : env.stopMicOk = true <;> simp [hs]
  · intro i
    rw [htr]
    by_cases hs : env.stopMicOk = true <;> simp [hs]

/-- C3 witness: resuming id 1 on the empty store. -/
theorem resume_not_found_witness :
    Database.get_conversation DBState.empty 1 = none ∧
    ((start_conversation DBState.empty 0 (some 1) okEnv).db = DBState.empty ∧
     (start_conversation DBState.empty 0 (some 1) okEnv).trace =
       Action.printNotFound 1 ::
         (if okEnv.stopMicOk then [Action.stopAudioBridge]
          else [Action.logStopError]) ∧
     Action.openChannel ∉
       (start_conversation DBState.empty 0 (some 1) okEnv).trace ∧
     ∀ i, Action.createConv i ∉
       (start_conversation DBState.empty 0 (some 1) okEnv).trace) :=
  ⟨rfl, resume_not_found DBState.empty 0 1 okEnv rfl⟩

/-- C1 counterexample: a run that reaches Active and ends normally
closes the channel first and stops the audio bridge last — the claimed
order (stop Audio Bridge, then close Channel, then set `paused`) does
not hold: the channel close and the `paused` write both precede the
bridge stop. -/
theorem teardown_order_counterexample :
    (start_conversation DBState.empty 0 none okEnv).trace =
      [Action.createConv 1, Action.openChannel, Action.closeChannel,
       Action.setStatusPaused 1, Action.stopAudioBridge] ∧
    (start_conversation DBState.empty 0 none okEnv).trace.indexOf
        Action.closeChannel <
      (start_conversation DBState.empty 0 none okEnv).trace.indexOf
        Action.stopAudioBridge ∧
    (start_conversation DBState.empty 0 none okEnv).trace.indexOf
        (Action.setStatusPaused 1) <
      (start_conversation DBState.empty 0 none okEnv).trace.indexOf
        Action.stopAudioBridge ∧
    ¬ (start_conversation DBState.empty 0 none okEnv).trace.indexOf
          Action.stopAudioBridge <
        (start_conversation DBState.empty 0 none okEnv).trace.indexOf
          Action.closeChannel := by
  decide

/-- C1 (amended): whenever a session leaves Active — user cancellation,
remote closure, or error — teardown runs in the order: close the
Channel (context-manager exit), then set the Store status to `paused`,
then stop the Audio Bridge; a failure of the status write or of the
bridge stop is logged and does not prevent the following step (the
bridge-stop segment is appended unconditionally). -/
theorem teardown_order (db : DBState) (t0 : Nat) (cid? : Option Nat)
    (env : SessionEnv) (s0 : CoordState) (tr0 : List Action)
    (hsetup : setupPhase db t0 cid? = Except.ok (s0, tr0))
    (hconn : env.connectOk = true) :
    ∃ c, s0.current_conversation_id = some c ∧
      Action.closeChannel ∈ activeExit env.ending ∧
      (start_conversation db t0 cid? env).trace =
        tr0 ++ [Action.openChannel] ++ activeExit env.ending ++
        ((if env.pauseUpdateOk then [Action.setStatusPaused c]
          else [Action.logPauseError]) ++
         (if env.stopMicOk then [Action.stopAudioBridge]
          else [Action.logStopError])) := by
  obtain ⟨c, hcur, _, _, _⟩ := setupPhase_ok db t0 cid? s0 tr0 hsetup
  have hcur1 : (activePhase s0 env.events).current_conversation_id =
      some c := by
    rw [activePhase_current]; exact hcur
  refine ⟨c, hcur, ?_, ?_⟩
  · cases env.ending <;> simp [activeExit, errorReport]
  · unfold start_conversation
    rw [hsetup]
    simp only [hconn, if_true]
    rw [cleanupTrace_of_current (activePhase s0 env.events) env c hcur1]

/-- C1 witness: the amended order on a concrete fresh-start run. -/
theorem teardown_order_witness :
    setupPhase DBState.empty 0 none =
      Except.ok (freshS0, [Action.createConv 1]) ∧
    okEnv.connectOk = true ∧
    ∃ c, freshS0.current_conversation_id = some c ∧
      Action.closeChannel ∈ activeExit okEnv.ending ∧
      (start_conversation DBState.empty 0 none okEnv).trace =
        [Action.createConv 1] ++ [Action.openChannel] ++
          activeExit okEnv.ending ++
        ((if okEnv.pauseUpdateOk then [Action.setStatusPaused c]
          else [Action.logPauseError]) ++
         (if okEnv.stopMicOk then [Action.stopAudioBridge]
          else [Action.logStopError])) :=
  ⟨rfl, rfl,
   teardown_order DBState.empty 0 none okEnv freshS0
     [Action.createConv 1] rfl rfl⟩

/-- C5: a channel closure without a close-handshake frame
(`ConnectionClosedError` / "no close frame") is classified as a normal
remote-side timeout: the informational resume report is printed and no
error report is, the conversation is left with status `paused`, and
every message persisted before the closure is still present. -/
theorem timeout_close_classified (db : DBState) (t0 : Nat)
    (cid? : Option Nat) (env : SessionEnv) (s0 : CoordState)
    (tr0 : List Action) (ty msg : String)
    (hsetup : setupPhase db t0 cid? = Except.ok (s0, tr0))
    (hconn : env.connectOk = true)
    (hend : env.ending = Ending.failed ty msg)
    (hto : isTimeoutClose ty msg = true)
    (hpause : env.pauseUpdateOk = true) :
    Action.printTimeoutInfo ∈ (start_conversation db t0 cid? env).trace ∧
    (∀ m, Action.printError m ∉ (start_conversation db t0 cid? env).trace) ∧
    (∃ c c', s0.current_conversation_id = some c ∧
      Database.get_conversation (start_conversation db t0 cid? env).db c =
        some c' ∧ c'.status = "paused") ∧
    (start_conversation db t0 cid? env).db.messages =
      (activePhase s0 env.events).db.messages := by
  obtain ⟨c, hcur, hmsgs, hsome, htr0⟩ := setupPhase_ok db t0 cid? s0 tr0 hsetup
  have hcur1 : (activePhase s0 env.events).current_conversation_id =
      some c := by
    rw [activePhase_current]; exact hcur
  have hdb : (start_conversation db t0 cid? env).db =
      Database.update_conversation_status (activePhase s0 env.events).db
        (activePhase s0 env.events).now c "paused" := by
    unfold start_conversation
    rw [hsetup]
    simp only [hconn, if_true]
    exact cleanupDB_of_current _ env c hcur1 hpause
  have htr : (start_conversation db t0 cid? env).trace =
      tr0 ++ [Action.openChannel] ++ activeExit env.ending ++
      ([Action.setStatusPaused c] ++
       (if env.stopMicOk then [Action.stopAudioBridge]
        else [Action.logStopError])) := by
    unfold start_conversation
    rw [hsetup]
    simp only [hconn, if_true]
    rw [cleanupTrace_of_current _ env c hcur1, hpause]
    simp
  refine ⟨?_, ?_, ?_, ?_⟩
  · rw [htr, hend]
    simp [activeExit, errorReport, hto]
  · intro m
    rw [htr, hend]
    rcases htr0 with h0 | h0 <;> rw [h0] <;>
      by_cases hs : env.stopMicOk = true <;>
        simp [hs, activeExit, errorReport, hto]
  · have hpres := activePhase_get_isSome env.events s0 c
    rw [hsome] at hpres
    obtain ⟨c', hc', hst⟩ := get_conversation_after_pause
      (activePhase s0 env.events).db (activePhase s0 env.events).now c
      "paused" hpres
    refine ⟨c, c', hcur, ?_, hst⟩
    rw [hdb]
    exact hc'
  · rw [hdb]
    exact update_status_messages _ _ _ _

/-- C5 witness: resuming conversation 1 of `sampleDB` and losing the
channel to the remote session-duration limit. -/
theorem timeout_close_classified_witness :
    setupPhase sampleDB 0 (some 1) =
      Except.ok (resumeS0, [Action.setStatusActive 1]) ∧
    timeoutEnv.connectOk = true ∧
    timeoutEnv.ending = Ending.failed
      "websockets.exceptions.ConnectionClosedError"
      "no close frame received or sent" ∧
    isTimeoutClose "websockets.exceptions.ConnectionClosedError"
      "no close frame received or sent" = true ∧
    timeoutEnv.pauseUpdateOk = true ∧
    (Action.printTimeoutInfo ∈
        (start_conversation sampleDB 0 (some 1) timeoutEnv).trace ∧
     (∀ m, Action.printError m ∉
        (start_conversation sampleDB 0 (some 1) timeoutEnv).trace) ∧
     (∃ c c', resumeS0.current_conversation_id = some c ∧
        Database.get_conversation
            (start_conversation sampleDB 0 (some 1) timeoutEnv).db c =
          some c' ∧ c'.status = "paused") ∧
     (start_conversation sampleDB 0 (some 1) timeoutEnv).db.messages =
       (activePhase resumeS0 timeoutEnv.events).db.messages) :=
  ⟨rfl, rfl, rfl, by decide, rfl,
   timeout_close_classified sampleDB 0 (some 1) timeoutEnv resumeS0
     [Action.setStatusActive 1]
     "websockets.exceptions.ConnectionClosedError"
     "no close frame received or sent" rfl rfl rfl (by decide) rfl⟩

/-- C10: a fresh start that creates the Conversation row and then
fails to connect does not remove the row: the run ends with exactly
one extra conversation, the new row has status `paused`, it has no
messages, and the messages table is untouched. -/
theorem failed_fresh_start (db : DBState) (t0 : Nat) (env : SessionEnv)
    (hconn : env.connectOk = false)
    (hpause : env.pauseUpdateOk = true)
    (hfresh : ∀ c ∈ db.conversations, c.id ≠ db.nextConvId)
    (hnomsg : ∀ m ∈ db.messages, m.conversation_id ≠ db.nextConvId) :
    (start_conversation db t0 none env).db.conversations.length =
      db.conversations.length + 1 ∧
    (start_conversation db t0 none env).db.messages = db.messages ∧
    (∃ c', Database.get_conversation (start_conversation db t0 none env).db
        db.nextConvId = some c' ∧ c'.status = "paused") ∧
    Database.get_messages (start_conversation db t0 none env).db
      db.nextConvId = [] := by
  have hdb : (start_conversation db t0 none env).db =
      Database.update_conversation_status
        (Database.create_conversation db t0 none).1 (t0 + 1)
        (Database.create_conversation db t0 none).2 "paused" := by
    unfold start_conversation
    simp only [setupPhase]
    simp only [hconn]
    exact cleanupDB_of_current
      { db := (Database.create_conversation db t0 none).1,
        current_conversation_id :=
          some (Database.create_conversation db t0 none).2,
        audioQueue := [], now := t0 + 1 } env
      (Database.create_conversation db t0 none).2 rfl hpause
  have hmsgs : (start_conversation db t0 none env).db.messages =
      db.messages := by
    rw [hdb]
    rfl
  have hg : Database.get_conversation
      (Database.create_conversation db t0 none).1 db.nextConvId =
      some { id := db.nextConvId,
             title := "Conversation " ++ toString t0,
             created_at := t0, updated_at := t0, status := "active" } := by
    unfold Database.get_conversation Database.create_conversation
    dsimp only
    rw [List.find?_append]
    have h1 : List.find? (fun c => c.id == db.nextConvId)
        db.conversations = none := by
      rw [List.find?_eq_none]
      intro c hc
      simpa using hfresh c hc
    rw [h1]
    simp [List.find?]
  refine ⟨?_, hmsgs, ?_, ?_⟩
  · rw [hdb]
    unfold Database.update_conversation_status
      Database.create_conversation
    simp
  · have h2 : (Database.create_conversation db t0 none).2 =
        db.nextConvId := rfl
    rw [hdb, h2, get_conversation_update_status, hg]
    refine ⟨_, rfl, ?_⟩
    simp
  · unfold Database.get_messages Database.convMsgs
    rw [hmsgs]
    have h3 : db.messages.filter
        (fun m => m.conversation_id == db.nextConvId) = [] := by
      rw [List.filter_eq_nil_iff]
      intro m hm
      simpa using hnomsg m hm
    rw [h3]
    rfl

/-- C10 witness: a fresh start on the empty store with a failing
connection. -/
theorem failed_fresh_start_witness :
    noConnectEnv.connectOk = false ∧
    noConnectEnv.pauseUpdateOk = true ∧
    (∀ c ∈ DBState.empty.conversations, c.id ≠ DBState.empty.nextConvId) ∧
    (∀ m ∈ DBState.empty.messages,
      m.conversation_id ≠ DBState.empty.nextConvId) ∧
    (c10run.db.conversations.length =
      DBState.empty.conversations.length + 1 ∧
     c10run.db.messages = DBState.empty.messages ∧
     (∃ c', Database.get_conversation c10run.db
        DBState.empty.nextConvId = some c' ∧ c'.status = "paused") ∧
     Database.get_messages c10run.db DBState.empty.nextConvId = []) :=
  ⟨rfl, rfl, by simp [DBState.empty], by simp [DBState.empty],
   failed_fresh_start DBState.empty 3 noConnectEnv rfl rfl
     (by simp [DBState.empty]) (by simp [DBState.empty])⟩

/-- C6: persisting a script of messages (any roles, in particular
alternating user/assistant) into a conversation with no prior messages,
at non-decreasing instants, makes `get_messages` return exactly those
rows in the order they were persisted, and leaves the conversation's
`updated_at` at the instant of the last `add_message` call. -/
theorem get_messages_in_order (db : DBState) (cid : Nat)
    (c0 : ConversationRow) (script : List (Nat × String × String))
    (hconv : Database.get_conversation db cid = some c0)
    (hempty : Database.convMsgs db cid = [])
    (hsorted : List.Pairwise (fun a b => a.1 ≤ b.1) script) :
    Database.get_messages (addAll db cid script) cid =
      expectedRows db.nextMsgId cid script ∧
    Database.get_conversation (addAll db cid script) cid =
      some { c0 with updated_at := lastD c0.updated_at script } := by
  obtain ⟨hmsgs, hconv'⟩ := addAll_spec script db cid c0 hconv
  refine ⟨?_, hconv'⟩
  unfold Database.get_messages Database.convMsgs
  rw [hmsgs, List.filter_append,
    show db.messages.filter (fun m => m.conversation_id == cid) = []
      from hempty,
    List.nil_append, expectedRows_filter cid script db.nextMsgId]
  exact List.Sorted.insertionSort_eq
    (expectedRows_sorted cid script db.nextMsgId hsorted)

/-- C6 witness: a two-turn user/assistant script on `sampleDB`. -/
theorem get_messages_in_order_witness :
    Database.get_conversation sampleDB 1 = some sampleConv ∧
    Database.convMsgs sampleDB 1 = [] ∧
    List.Pairwise (fun (a b : Nat × String × String) => a.1 ≤ b.1) wScript ∧
    (Database.get_messages (addAll sampleDB 1 wScript) 1 =
       expectedRows sampleDB.nextMsgId 1 wScript ∧
     Database.get_conversation (addAll sampleDB 1 wScript) 1 =
       some { sampleConv with
              updated_at := lastD sampleConv.updated_at wScript }) :=
  ⟨rfl, rfl, by decide,
   get_messages_in_order sampleDB 1 sampleConv wScript rfl rfl (by decide)⟩

/-- C7: `list_conversations` is sorted by `updated_at` descending,
truncated to the limit (`min limit #conversations` entries, all of them
when the limit is large enough, as a permutation of the summaries of
every conversation), and each returned entry's `message_count` is the
number of Message rows with that conversation's id. -/
theorem list_conversations_spec (db : DBState) (limit : Nat) :
    List.Sorted Database.sumGe (Database.list_conversations db limit) ∧
    (Database.list_conversations db limit).length =
      min limit db.conversations.length ∧
    (db.conversations.length ≤ limit →
      (Database.list_conversations db limit).Perm
        (db.conversations.map (Database.mkSummary db))) ∧
    ∀ s ∈ Database.list_conversations db limit,
      s.message_count =
        (db.messages.filter
          (fun m => m.conversation_id == s.conv.id)).length := by
  refine ⟨?_, ?_, ?_, ?_⟩
  · exact List.Pairwise.sublist (List.take_sublist _ _)
      (List.sorted_insertionSort _ _)
  · unfold Database.list_conversations
    rw [List.length_take, List.length_insertionSort, List.length_map]
  · intro hle
    unfold Database.list_conversations
    rw [List.take_of_length_le (by
      rw [List.length_insertionSort, List.length_map]; exact hle)]
    exact List.perm_insertionSort _ _
  · intro s hs
    have hs1 : s ∈ List.insertionSort Database.sumGe
        (db.conversations.map (Database.mkSummary db)) :=
      List.mem_of_mem_take hs
    have hs2 : s ∈ db.conversations.map (Database.mkSummary db) :=
      (List.perm_insertionSort _ _).subset hs1
    obtain ⟨c, _, rfl⟩ := List.mem_map.mp hs2
    rfl

/-- C7 witness: the specification applied to the concrete store
`sampleDBAfter` with the default limit. -/
theorem list_conversations_spec_witness :
    List.Sorted Database.sumGe (Database.list_conversations sampleDBAfter 50) ∧
    (Database.list_conversations sampleDBAfter 50).length =
      min 50 sampleDBAfter.conversations.length ∧
    (sampleDBAfter.conversations.length ≤ 50 →
      (Database.list_conversations sampleDBAfter 50).Perm
        (sampleDBAfter.conversations.map (Database.mkSummary sampleDBAfter))) ∧
    ∀ s ∈ Database.list_conversations sampleDBAfter 50,
      s.message_count =
        (sampleDBAfter.messages.filter
          (fun m => m.conversation_id == s.conv.id)).length :=
  list_conversations_spec sampleDBAfter 50

/-- C9: a required key (`HUME_API_KEY` or `HUME_CONFIG_ID`) that is
unset, empty, or left at its `your_<key>_here` placeholder makes the
CLI `start` command fail while constructing the configuration — before
any session is attempted (no `RunResult` is ever produced) — with an
error message that names the variable and says where to obtain it. -/
theorem config_missing_key (envv : String → Option String) (key : String)
    (hkey : key = "HUME_API_KEY" ∨ key = "HUME_CONFIG_ID")
    (hbad : envv key = none ∨ envv key = some "" ∨
      envv key = some ("your_" ++ key.toLower ++ "_here")) :
    ∃ msg, (∀ db t0 senv, cliStart envv db t0 senv = Except.error msg) ∧
      strContains msg key = true ∧
      strContains msg "https://platform.hume.ai/" = true := by
  have hbadkey : get_required_env envv key =
      Except.error (requiredEnvMsg key) := by
    unfold get_required_env
    rcases hbad with h | h | h <;> rw [h] <;> simp
  rcases hkey with hk | hk
  · subst hk
    refine ⟨requiredEnvMsg "HUME_API_KEY", ?_, by decide, by decide⟩
    intro db t0 senv
    unfold cliStart Config.init
    rw [hbadkey]
    rfl
  · subst hk
    cases hapi : get_required_env envv "HUME_API_KEY" with
    | error e =>
        have he : e = requiredEnvMsg "HUME_API_KEY" :=
          get_required_env_error envv "HUME_API_KEY" e hapi
        subst he
        refine ⟨requiredEnvMsg "HUME_API_KEY", ?_, by decide, by decide⟩
        intro db t0 senv
        unfold cliStart Config.init
        rw [hapi]
        rfl
    | ok v =>
        refine ⟨requiredEnvMsg "HUME_CONFIG_ID", ?_, by decide, by decide⟩
        intro db t0 senv
        unfold cliStart Config.init
        rw [hapi, hbadkey]
        rfl

/-- C9 witness: the empty environment fails for `HUME_API_KEY`. -/
theorem config_missing_key_witness :
    ("HUME_API_KEY" = "HUME_API_KEY" ∨
     "HUME_API_KEY" = "HUME_CONFIG_ID") ∧
    (emptyEnvVars "HUME_API_KEY" = none ∨
     emptyEnvVars "HUME_API_KEY" = some "" ∨
     emptyEnvVars "HUME_API_KEY" =
       some ("your_" ++ "HUME_API_KEY".toLower ++ "_here")) ∧
    ∃ msg, (∀ db t0 senv,
        cliStart emptyEnvVars db t0 senv = Except.error msg) ∧
      strContains msg "HUME_API_KEY" = true ∧
      strContains msg "https://platform.hume.ai/" = true :=
  ⟨Or.inl rfl, Or.inl rfl,
   config_missing_key emptyEnvVars "HUME_API_KEY" (Or.inl rfl) (Or.inl rfl)⟩

/-- C8 witness: creating with no title on the empty store. -/
theorem create_then_get_witness :
    (∀ c ∈ DBState.empty.conversations, c.id ≠ DBState.empty.nextConvId) ∧
    ∃ rec,
      Database.get_conversation
          (Database.create_conversation DBState.empty 7 none).1
          (Database.create_conversation DBState.empty 7 none).2 = some rec ∧
      rec.status = "active" ∧ rec.title ≠ "" :=
  ⟨by simp [DBState.empty],
   create_then_get DBState.empty 7 none (by simp [DBState.empty])⟩

end HumeCLI
